import Mathlib

/-!
Verification development for the Polymarket BTC 15-minute bot
(`polymarket-bot/btc_15m_bot_v3.py`).

Embedding conventions:
* Python floats (prices, probabilities, timestamps in epoch seconds) are
  embedded as exact rationals (`ℚ`); float arithmetic is modelled as exact
  field arithmetic.
* The foreign library functions `math.sqrt` and `math.erf` are abstracted as
  function parameters `sqrt erf : ℚ → ℚ`; the properties a theorem needs of
  them (monotonicity of `erf`, positivity of `sqrt` on positives) are stated
  as explicit hypotheses.
* Position dicts are embedded as a structure; the live-trading entry path
  appends a dict with no `"status"` key, which is embedded as
  `status = none` (`dict.get` returns `None` there).
* Logging and push-notification side effects that produce no state read back
  by the program are omitted.
-/

namespace KozBot

/-- Trade direction, the Python strings `"UP"` / `"DOWN"`. -/
inductive Direction where
  | UP
  | DOWN
deriving DecidableEq, Repr

/-- Position status strings `"OPEN"` / `"TP_HIT"` / `"SL_HIT"` / `"SETTLED"`
(btc_15m_bot_v3.py line 1199). -/
inductive Status where
  | OPEN
  | TP_HIT
  | SL_HIT
  | SETTLED
deriving DecidableEq, Repr

/-- One side's order book (`OrderBook` dataclass, lines 69-86): best bid and
best ask for one outcome token. -/
structure OrderBook where
  best_bid : ℚ
  best_ask : ℚ
deriving DecidableEq, Repr

/-- The fields of `Market15m` (lines 88-133) read by the operations under
verification.  `strike_price` is `Optional[float]`, captured after market
discovery.  Token ids, question text and times are omitted: no verified
operation reads them. -/
structure Market15m where
  slug : String
  strike_price : Option ℚ
  book_up : OrderBook
  book_down : OrderBook
deriving DecidableEq, Repr

/-- `Market15m.up_price` property (lines 128-129). -/
def Market15m.up_price (m : Market15m) : ℚ :=
  if m.book_up.best_ask > 0 then m.book_up.best_ask else 0.5

/-- `Market15m.down_price` property (lines 131-133). -/
def Market15m.down_price (m : Market15m) : ℚ :=
  if m.book_down.best_ask > 0 then m.book_down.best_ask else 0.5

/-- A position dict as appended by `execute_trade` (lines 1190-1200 paper,
1259-1266 live) and mutated by the exit paths.  The live path appends no
`"status"` key, embedded as `status = none`; `exit_price` and `pnl` are
absent until an exit path writes them.  The write-only keys `shares` and
`sl_placed` are omitted (no verified operation reads them). -/
structure Position where
  market_slug : String
  direction : Direction
  entry_price : ℚ
  size : ℚ
  timestamp : ℚ
  tp_placed : Bool
  status : Option Status
  exit_price : Option ℚ
  pnl : Option ℚ
deriving DecidableEq, Repr

/-- A record pushed to `AsyncTradeLogger` by an exit path (stop-loss lines
1128-1137, take-profit lines 1087-1096, settlement lines 1039-1050); only the
fields common to those records are kept. -/
structure TradeEvent where
  etype : String
  market : String
  direction : Direction
  entry_price : ℚ
  exit_price : ℚ
  pnl : ℚ
  mode : String
deriving DecidableEq, Repr

/-- `ProbabilityStrategy.calculate_prob_up` (lines 370-392).  `sqrt` and
`erf` stand for `math.sqrt` and `math.erf`; `volatility_per_min` is the
`self` state read by the method.  The Python writes
`sigma_t = self.volatility_per_min * math.sqrt(minutes_left)` and
`0.5 * (1 + math.erf(z_score / math.sqrt(2)))`. -/
def calculate_prob_up (sqrt erf : ℚ → ℚ) (volatility_per_min : ℚ)
    (current_price strike_price minutes_left : ℚ) : ℚ :=
  if minutes_left ≤ 0 then
    (if current_price ≥ strike_price then 1 else 0)
  else if volatility_per_min * sqrt minutes_left = 0 then
    (if current_price ≥ strike_price then 1 else 0)
  else
    0.5 * (1 + erf (((current_price - strike_price) /
      (volatility_per_min * sqrt minutes_left)) / sqrt 2))

/-- The probability pair computed by one `trade_loop` tick: `prob_down` is
defined as `1.0 - prob_up` both on the plain path (lines 711-712) and after
the ML blend `prob_up = ai_prob_up * 0.3 + math_prob * 0.7` (lines 786-788);
`ml_prob = none` is the no-model / prediction-failure path. -/
def loop_probs (math_prob : ℚ) (ml_prob : Option ℚ) : ℚ × ℚ :=
  match ml_prob with
  | none => (math_prob, 1 - math_prob)
  | some ai_prob_up =>
    (ai_prob_up * 0.3 + math_prob * 0.7, 1 - (ai_prob_up * 0.3 + math_prob * 0.7))

/-- C2: for `minutesLeft ≤ 0`, and likewise whenever
`sigma_t = volatility_per_min * sqrt(minutesLeft)` is zero,
`calculate_prob_up` returns exactly 1 if `currentPrice ≥ strikePrice` and
exactly 0 otherwise. -/
theorem calculate_prob_up_degenerate (sqrt erf : ℚ → ℚ)
    (volatility_per_min current_price strike_price minutes_left : ℚ)
    (h : minutes_left ≤ 0 ∨ volatility_per_min * sqrt minutes_left = 0) :
    calculate_prob_up sqrt erf volatility_per_min current_price strike_price minutes_left =
      if current_price ≥ strike_price then 1 else 0 := by
  rcases h with h | h
  · simp [calculate_prob_up, h]
  · by_cases hm : minutes_left ≤ 0
    · simp [calculate_prob_up, hm]
    · simp [calculate_prob_up, hm, h]

/-- Witness for C2: on the concrete degenerate input `minutes_left = 0`,
`current = 50100 ≥ strike = 50000`, the function returns exactly 1. -/
theorem calculate_prob_up_degenerate_witness :
    calculate_prob_up (fun x => x) (fun x => x) 25 50100 50000 0 = 1 := by
  have h := calculate_prob_up_degenerate (fun x => x) (fun x => x) 25 50100 50000 0
    (Or.inl le_rfl)
  rw [h]
  norm_num

/-- The best bid used to value a held position (stop-loss line 1105,
take-profit line 1066): the bid of the book on the held side. -/
def current_bid_for (m : Market15m) (p : Position) : ℚ :=
  if p.direction = Direction.UP then m.book_up.best_bid else m.book_down.best_bid

/-- The record `check_stop_loss` pushes to the trade logger on a trigger
(lines 1128-1137). -/
def stop_loss_event (paper_trade : Bool) (m : Market15m) (p : Position)
    (current_bid pnl_pct : ℚ) : TradeEvent :=
  { etype := if paper_trade then "STOP_LOSS_PAPER" else "STOP_LOSS"
    market := m.slug
    direction := p.direction
    entry_price := p.entry_price
    exit_price := current_bid
    pnl := pnl_pct
    mode := if paper_trade then "PAPER" else "LIVE" }

/-- `PolymarketBotV3.check_stop_loss` (lines 1098-1137): for each position of
the current market with status `"OPEN"`, skip the tick when the best bid is
non-positive, otherwise trigger when `(bid - entry) / entry < -stop_loss_pct`,
removing the position and logging an exit at that bid.  Returns the surviving
position list and the logged records. -/
def check_stop_loss (paper_trade : Bool) (stop_loss_pct : ℚ) (m : Market15m) :
    List Position → List Position × List TradeEvent
  | [] => ([], [])
  | p :: rest =>
    let r := check_stop_loss paper_trade stop_loss_pct m rest
    if p.market_slug ≠ m.slug then (p :: r.1, r.2)
    else if p.status ≠ some Status.OPEN then (p :: r.1, r.2)
    else if current_bid_for m p ≤ 0 then (p :: r.1, r.2)
    else if (current_bid_for m p - p.entry_price) / p.entry_price < -stop_loss_pct then
      (r.1, stop_loss_event paper_trade m p (current_bid_for m p)
        ((current_bid_for m p - p.entry_price) / p.entry_price) :: r.2)
    else (p :: r.1, r.2)

/-- The record `check_take_profit` pushes to the trade logger on a trigger
(lines 1087-1096). -/
def take_profit_event (paper_trade : Bool) (m : Market15m) (p : Position)
    (current_bid pnl_pct : ℚ) : TradeEvent :=
  { etype := if paper_trade then "TAKE_PROFIT_PAPER" else "TAKE_PROFIT"
    market := m.slug
    direction := p.direction
    entry_price := p.entry_price
    exit_price := current_bid
    pnl := pnl_pct
    mode := if paper_trade then "PAPER" else "LIVE" }

/-- `PolymarketBotV3.check_take_profit` (lines 1054-1096): for each position
of the current market with status `"OPEN"` and no take-profit already placed,
trigger when the best bid reaches `entry * 1.15` (capped at 0.99), removing
the position and logging an exit at that bid. -/
def check_take_profit (paper_trade : Bool) (m : Market15m) :
    List Position → List Position × List TradeEvent
  | [] => ([], [])
  | p :: rest =>
    let r := check_take_profit paper_trade m rest
    if p.market_slug ≠ m.slug then (p :: r.1, r.2)
    else if p.tp_placed then (p :: r.1, r.2)
    else if p.status ≠ some Status.OPEN then (p :: r.1, r.2)
    else
      let tp_price := if p.entry_price * 1.15 ≥ 0.99 then 0.99 else p.entry_price * 1.15
      if current_bid_for m p ≥ tp_price then
        (r.1, take_profit_event paper_trade m p (current_bid_for m p)
          ((current_bid_for m p - p.entry_price) / p.entry_price) :: r.2)
      else (p :: r.1, r.2)

/-- Binary exponent of the positive rational `n / d`: the unique `e` with
`2 ^ e ≤ n / d < 2 ^ (e + 1)`, found by scanning `e ∈ [-25, 6]` (every
quantity arising in the stop-loss scenario lies well inside this range). -/
def dyadicExp (n d : ℕ) : ℤ :=
  (List.range 32).foldl
    (fun (acc : ℤ) (i : ℕ) =>
      if d * 2 ^ i ≤ n * 2 ^ 25 ∧ n * 2 ^ 25 < d * 2 ^ (i + 1) then (i : ℤ) - 25 else acc)
    0

/-- Round the positive rational `n / d` to the nearest IEEE-754 binary64
value (53-bit significand, ties to even), returned as an integer scaled by
`2 ^ 80`: every double whose exponent lies in the scanned range is an integer
multiple of `2 ^ (-80)`.  Overflow and subnormals lie outside the range
needed here and are not modelled. -/
def droundPos (n d : ℕ) : ℕ :=
  let e : ℤ := dyadicExp n d
  let a : ℕ := n * 2 ^ ((52 : ℤ) - e).toNat
  let b : ℕ := d * 2 ^ (e - 52).toNat
  let q0 : ℕ := a / b
  let rem : ℕ := a % b
  let m : ℕ := if 2 * rem < b then q0
    else if b < 2 * rem then q0 + 1
    else (if q0 % 2 = 0 then q0 else q0 + 1)
  m * 2 ^ (e + 28).toNat

/-- Round the rational `num / den` (`den > 0`) to the nearest binary64 value,
as a signed integer scaled by `2 ^ 80`; rounding is symmetric, so the sign is
split off. -/
def dround (num : ℤ) (den : ℕ) : ℤ :=
  if num = 0 then 0
  else if 0 < num then (droundPos num.toNat den : ℤ)
  else -((droundPos (-num).toNat den : ℕ) : ℤ)

/-- Correctly rounded binary64 subtraction (Python float `-`) on doubles
scaled by `2 ^ 80`: exact difference, then rounding. -/
def dsub (a b : ℤ) : ℤ := dround (a - b) (2 ^ 80)

/-- Correctly rounded binary64 division (Python float `/`) by a positive
double, on doubles scaled by `2 ^ 80`: the scales cancel, leaving the exact
quotient `a / b` to round. -/
def ddiv (a b : ℤ) : ℤ := dround a b.toNat

/-- Lines 1105-1113 of `check_stop_loss` under Python's float (binary64)
semantics, all values doubles scaled by `2 ^ 80`: the non-positive-bid guard
(`current_bid <= 0`, an exact comparison), then
`pnl_pct = (current_bid - entry_price) / entry_price` with correctly rounded
subtraction and division, then the exact comparison
`pnl_pct < -stop_loss_pct` (negating a double is exact). -/
def float_stop_loss_fires (stop_loss_pct80 entry_price80 current_bid80 : ℤ) : Bool :=
  if current_bid80 ≤ 0 then false
  else decide (ddiv (dsub current_bid80 entry_price80) entry_price80 < -stop_loss_pct80)

/-- The doubles for 0.26, 0.40 and 0.35 have the significands
4683743612465316, 7205759403792794 and 6305039478318694 at exponent
`2 ^ (-54)` (scale `2 ^ 80` leaves a factor `2 ^ 26`). -/
theorem dround_constants :
    dround 26 100 = 4683743612465316 * 2 ^ 26 ∧
    dround 40 100 = 7205759403792794 * 2 ^ 26 ∧
    dround 35 100 = 6305039478318694 * 2 ^ 26 :=
  ⟨by decide, by decide, by decide⟩

set_option maxRecDepth 100000 in
set_option maxHeartbeats 4000000 in
/-- Scenario grid check under binary64 arithmetic: with entry the double 0.40
and threshold the double 0.35, for every best bid `k / 1000` on the 0.001
price grid (`0 < k < 1000`, parsed to its nearest double), the stop-loss
comparison fires exactly when `k / 1000 ≤ 0.26`.  In particular it fires at
a bid of exactly 0.26: there the computed quotient rounds to
-0.35000000000000003, strictly below the double 0.35 negated. -/
theorem float_stop_loss_grid :
    ∀ k : ℕ, k < 1000 → 1 ≤ k →
      (float_stop_loss_fires (dround 35 100) (dround 40 100) (dround (k : ℤ) 1000) = true ↔
        mkRat (k : ℤ) 1000 ≤ mkRat 26 100) := by
  decide

/-- A concrete window used by the closed witness instances. -/
def demo_market : Market15m :=
  { slug := "btc-updown-15m-1760227200", strike_price := some 50000,
    book_up := { best_bid := 0.20, best_ask := 0.22 },
    book_down := { best_bid := 0.70, best_ask := 0.75 } }

/-- A concrete open `UP` position used by the closed witness instances. -/
def demo_open_up : Position :=
  { market_slug := "btc-updown-15m-1760227200", direction := Direction.UP,
    entry_price := 0.40, size := 0.05, timestamp := 1760227300,
    tp_placed := false, status := some Status.OPEN,
    exit_price := none, pnl := none }

/-- C3: for a position of the current market with status `"OPEN"`, the
stop-loss check removes it exactly when the best bid is positive and the
program's own comparison `(bid - entry) / entry < -stop_loss_pct` holds; on
a trigger it logs an exit at that bid; a non-positive bid suppresses the
evaluation for the tick; and in the scenario `entry = 0.40`,
`stop_loss_pct = 0.35`, under the IEEE-754 binary64 arithmetic the Python
floats actually use, the trigger fires exactly when the best bid is at most
0.26 — for every bid on the 0.001 price grid, including the boundary bid
0.26 itself, where the rounded quotient lands just below -0.35. -/
theorem check_stop_loss_spec (paper_trade : Bool) (stop_loss_pct : ℚ)
    (m : Market15m) (p : Position)
    (hslug : p.market_slug = m.slug) (hopen : p.status = some Status.OPEN) :
    ((check_stop_loss paper_trade stop_loss_pct m [p]).1 = [] ↔
      0 < current_bid_for m p ∧
        (current_bid_for m p - p.entry_price) / p.entry_price < -stop_loss_pct) ∧
    ((check_stop_loss paper_trade stop_loss_pct m [p]).1 = [] →
      (check_stop_loss paper_trade stop_loss_pct m [p]).2 =
        [stop_loss_event paper_trade m p (current_bid_for m p)
          ((current_bid_for m p - p.entry_price) / p.entry_price)]) ∧
    (current_bid_for m p ≤ 0 →
      check_stop_loss paper_trade stop_loss_pct m [p] = ([p], [])) ∧
    (∀ k : ℕ, k < 1000 → 1 ≤ k →
      (float_stop_loss_fires (dround 35 100) (dround 40 100) (dround (k : ℤ) 1000) = true ↔
        mkRat (k : ℤ) 1000 ≤ mkRat 26 100)) := by
  have hA : ((check_stop_loss paper_trade stop_loss_pct m [p]).1 = [] ↔
      0 < current_bid_for m p ∧
        (current_bid_for m p - p.entry_price) / p.entry_price < -stop_loss_pct) ∧
      ((check_stop_loss paper_trade stop_loss_pct m [p]).1 = [] →
        (check_stop_loss paper_trade stop_loss_pct m [p]).2 =
          [stop_loss_event paper_trade m p (current_bid_for m p)
            ((current_bid_for m p - p.entry_price) / p.entry_price)]) ∧
      (current_bid_for m p ≤ 0 →
        check_stop_loss paper_trade stop_loss_pct m [p] = ([p], [])) := by
    simp only [check_stop_loss, hslug, hopen, ne_eq, not_true_eq_false, if_false,
      ite_not, if_true, ite_true, not_false_eq_true]
    by_cases hbid : current_bid_for m p ≤ 0
    · simp [hbid, not_lt.mpr hbid]
    · have hbid' : 0 < current_bid_for m p := not_le.mp hbid
      by_cases hfire : (current_bid_for m p - p.entry_price) / p.entry_price < -stop_loss_pct
      · refine ⟨?_, ?_, ?_⟩
        · simp [hbid, hfire, hbid']
        · simp [hbid, hfire]
        · intro h; exact absurd h hbid
      · refine ⟨?_, ?_, ?_⟩
        · simp [hbid, hfire]
        · simp [hbid, hfire]
        · intro h; exact absurd h hbid
  exact ⟨hA.1, hA.2.1, hA.2.2, float_stop_loss_grid⟩

/-- Witness for C3: the theorem removes the concrete demo position entered at
0.40 when the book bids 0.20, and its scenario conjunct instantiated at
`k = 260` shows the binary64 comparison firing at a best bid of exactly
0.26. -/
theorem check_stop_loss_spec_witness :
    (check_stop_loss false 0.35 demo_market [demo_open_up]).1 = [] ∧
    float_stop_loss_fires (dround 35 100) (dround 40 100) (dround 260 1000) = true := by
  have h := check_stop_loss_spec false 0.35 demo_market demo_open_up rfl rfl
  refine ⟨h.1.mpr ⟨?_, ?_⟩, (h.2.2.2 260 (by norm_num) (by norm_num)).mpr (by decide)⟩
  · norm_num [current_bid_for, demo_market, demo_open_up]
  · norm_num [current_bid_for, demo_market, demo_open_up]

/-- Winner determination at settlement (line 1009):
`winner = "UP" if final_price >= strike else "DOWN"`. -/
def the_winner (final_price strike : ℚ) : Direction :=
  if final_price ≥ strike then Direction.UP else Direction.DOWN

/-- Payout of a position at settlement (line 1025):
`payout = 1.0 if p["direction"] == winner else 0.0`. -/
def payout_of (winner : Direction) (p : Position) : ℚ :=
  if p.direction = winner then 1 else 0

/-- The in-place mutation of a settled position (lines 1025-1033): status
becomes `"SETTLED"`, exit price is the payout, pnl is
`(payout - entry) / entry`. -/
def settled_update (winner : Direction) (p : Position) : Position :=
  { p with status := some Status.SETTLED
           exit_price := some (payout_of winner p)
           pnl := some ((payout_of winner p - p.entry_price) / p.entry_price) }

/-- The record `settle_positions` pushes to the trade logger per settled
position (lines 1039-1050). -/
def settle_event (paper_trade : Bool) (m : Market15m) (p : Position)
    (payout pnl_pct : ℚ) : TradeEvent :=
  { etype := if paper_trade then "SETTLED_PAPER" else "SETTLED"
    market := m.slug
    direction := p.direction
    entry_price := p.entry_price
    exit_price := payout
    pnl := pnl_pct
    mode := if paper_trade then "PAPER" else "LIVE" }

/-- The position-iteration of `settle_positions` (lines 1021-1052): positions
of other markets or with a status other than `"OPEN"` are kept; each
remaining open position of the window is settled (mutated as
`settled_update`), logged, and removed from the collection.  Returns
(kept, settled, logged records). -/
def settle_loop (paper_trade : Bool) (m : Market15m) (winner : Direction) :
    List Position → List Position × List Position × List TradeEvent
  | [] => ([], [], [])
  | p :: rest =>
    let r := settle_loop paper_trade m winner rest
    if p.market_slug ≠ m.slug then (p :: r.1, r.2.1, r.2.2)
    else if p.status ≠ some Status.OPEN then (p :: r.1, r.2.1, r.2.2)
    else
      (r.1, settled_update winner p :: r.2.1,
        settle_event paper_trade m p (payout_of winner p)
          ((payout_of winner p - p.entry_price) / p.entry_price) :: r.2.2)

/-- The outcome of one `settle_positions` call: the surviving collection, the
settled (mutated, then removed) positions, the logged records, whether
on-chain redemption was triggered, and the winner that was determined. -/
structure SettleResult where
  kept : List Position
  settled : List Position
  events : List TradeEvent
  redeem_triggered : Bool
  winner : Option Direction
deriving DecidableEq, Repr

/-- `PolymarketBotV3.settle_positions` (lines 1003-1052).  The Python guard
`if not strike: return` is falsy both for `None` and for `0.0`; redemption
(`_raw_redeem`) is attempted when not in paper mode and a CLOB client exists
(line 1014), before the position iteration. -/
def settle_positions (paper_trade clob_client : Bool) (m : Market15m)
    (final_price : ℚ) (positions : List Position) : SettleResult :=
  match m.strike_price with
  | none => ⟨positions, [], [], false, none⟩
  | some strike =>
    if strike = 0 then ⟨positions, [], [], false, none⟩
    else
      let winner := the_winner final_price strike
      let r := settle_loop paper_trade m winner positions
      ⟨r.1, r.2.1, r.2.2, !paper_trade && clob_client, some winner⟩

/-- Membership of the settled update in the settled list, for every open
position of the window. -/
theorem settle_loop_mem (paper_trade : Bool) (m : Market15m) (winner : Direction)
    (ps : List Position) (p : Position) (hp : p ∈ ps)
    (hslug : p.market_slug = m.slug) (hopen : p.status = some Status.OPEN) :
    settled_update winner p ∈ (settle_loop paper_trade m winner ps).2.1 := by
  induction ps with
  | nil => cases hp
  | cons q rest ih =>
    rcases List.mem_cons.mp hp with hq | hrest
    · subst hq
      simp [settle_loop, hslug, hopen]
    · by_cases h1 : q.market_slug = m.slug
      · by_cases h2 : q.status = some Status.OPEN
        · simp only [settle_loop, h1, h2]
          simp [ih hrest]
        · simp only [settle_loop, h1]
          simp [h2, ih hrest]
      · simp only [settle_loop]
        simp [h1, ih hrest]

/-- C5: when a non-zero strike has been captured, the winner is `UP` iff the
final price is at least the strike; every still-open position of the window
is settled with status `"SETTLED"`, exit price equal to its payout (1 when
its direction matches the winner, else 0), and realized pnl
`(payout - entry) / entry`; in particular when the final price is below the
strike, open `UP` positions pay 0 and open `DOWN` positions pay 1. -/
theorem settle_positions_spec (paper_trade clob_client : Bool) (m : Market15m)
    (final_price strike : ℚ) (positions : List Position)
    (hm : m.strike_price = some strike) (h0 : strike ≠ 0) :
    (settle_positions paper_trade clob_client m final_price positions).winner =
      some (if final_price ≥ strike then Direction.UP else Direction.DOWN) ∧
    ∀ p ∈ positions, p.market_slug = m.slug → p.status = some Status.OPEN →
      ({ p with status := some Status.SETTLED
                exit_price := some (payout_of (the_winner final_price strike) p)
                pnl := some ((payout_of (the_winner final_price strike) p - p.entry_price) /
                  p.entry_price) } : Position) ∈
        (settle_positions paper_trade clob_client m final_price positions).settled ∧
      (final_price < strike →
        (p.direction = Direction.UP → payout_of (the_winner final_price strike) p = 0) ∧
        (p.direction = Direction.DOWN → payout_of (the_winner final_price strike) p = 1)) := by
  constructor
  · simp [settle_positions, hm, h0, the_winner]
  · intro p hp hslug hopen
    constructor
    · have hmem := settle_loop_mem paper_trade m (the_winner final_price strike)
        positions p hp hslug hopen
      simp only [settle_positions, hm, h0, if_false, ite_false]
      simpa [settled_update] using hmem
    · intro hlt
      have hw : the_winner final_price strike = Direction.DOWN := by
        simp [the_winner, not_le.mpr hlt]
      constructor
      · intro hdir
        simp [payout_of, hdir, hw]
      · intro hdir
        simp [payout_of, hdir, hw]

/-- Witness for C5: a concrete window with strike 50000 settling at 49000
(below strike) settles its one open `UP` position with payout 0, status
`"SETTLED"` and pnl `(payout - entry) / entry`. -/
theorem settle_positions_spec_witness :
    payout_of (the_winner 49000 50000) demo_open_up = 0 ∧
    ({ demo_open_up with
        status := some Status.SETTLED
        exit_price := some (payout_of (the_winner 49000 50000) demo_open_up)
        pnl := some ((payout_of (the_winner 49000 50000) demo_open_up -
          demo_open_up.entry_price) / demo_open_up.entry_price) } : Position) ∈
      (settle_positions false false demo_market 49000 [demo_open_up]).settled :=
  ⟨by norm_num [payout_of, the_winner, demo_open_up]; decide,
   ((settle_positions_spec false false demo_market 49000 50000 [demo_open_up]
      rfl (by norm_num)).2 demo_open_up (List.mem_singleton.mpr rfl) rfl rfl).1⟩

/-- C10: when the stored strike price is `None` or exactly `0.0` (both falsy
in the Python guard `if not strike: return`), `settle_positions` returns
immediately: no winner, no redemption, no logged record, and the position
collection is unchanged. -/
theorem settle_positions_no_strike (paper_trade clob_client : Bool)
    (m : Market15m) (final_price : ℚ) (positions : List Position)
    (h : m.strike_price = none ∨ m.strike_price = some 0) :
    settle_positions paper_trade clob_client m final_price positions =
      ⟨positions, [], [], false, none⟩ := by
  rcases h with h | h
  · simp [settle_positions, h]
  · simp [settle_positions, h]

/-- Witness for C10: a concrete call with a captured strike of `0.0` leaves
one open position untouched, triggers nothing and determines no winner. -/
theorem settle_positions_no_strike_witness :
    settle_positions false true
      { slug := "btc-updown-15m-1760227200", strike_price := some 0,
        book_up := { best_bid := 0.20, best_ask := 0.22 },
        book_down := { best_bid := 0.70, best_ask := 0.75 } }
      49000
      [{ market_slug := "btc-updown-15m-1760227200", direction := Direction.UP,
         entry_price := 0.40, size := 0.05, timestamp := 1760227300,
         tp_placed := false, status := some Status.OPEN,
         exit_price := none, pnl := none }] =
    ⟨[{ market_slug := "btc-updown-15m-1760227200", direction := Direction.UP,
        entry_price := 0.40, size := 0.05, timestamp := 1760227300,
        tp_placed := false, status := some Status.OPEN,
        exit_price := none, pnl := none }], [], [], false, none⟩ :=
  settle_positions_no_strike false true _ 49000 _ (Or.inr rfl)

/-- The stale-position cleanup in the main loop (lines 605-606):
`self.positions = [p for p in self.positions if (now - p["timestamp"]).total_seconds() < 3600]`,
with `now` and the entry timestamp in epoch seconds.  It emits nothing and
mutates no position. -/
def cleanup_positions (now : ℚ) (positions : List Position) : List Position :=
  positions.filter (fun p => now - p.timestamp < 3600)

/-- C9: a position survives the main-loop cleanup exactly when its entry
timestamp is less than 3600 seconds old; in particular any position older
than 3600 seconds is removed unchanged — whatever its status, open included —
and the cleanup emits no record for it. -/
theorem cleanup_positions_spec (now : ℚ) (positions : List Position) (p : Position) :
    p ∈ cleanup_positions now positions ↔ p ∈ positions ∧ now - p.timestamp < 3600 := by
  simp [cleanup_positions, List.mem_filter]

/-- The de-duplication key of `execute_trade` (line 1157):
`signal_id = f"{market.slug}_{direction}"`. -/
def signal_id (slug : String) (d : Direction) : String :=
  slug ++ "_" ++ (match d with | Direction.UP => "UP" | Direction.DOWN => "DOWN")

/-- The arguments and bot state read by one `execute_trade` call: the market
and direction of the fired signal, the order size, the mode flag
`self.paper_trade` and the config switch `self.execution_enabled` (the
latter per call, since the config hot-reloader may swap it between calls),
and the wall-clock time used for the entry timestamp. -/
structure SigCall where
  market : Market15m
  direction : Direction
  size : ℚ
  paper_trade : Bool
  execution_enabled : Bool
  now : ℚ
deriving DecidableEq, Repr

/-- The mutable bot state touched by the entry path: the de-duplication set
`self.notified_signals` (a set of signal-id strings, created empty in
`__init__` line 492) and the position collection `self.positions`. -/
structure GKState where
  notified_signals : List String
  positions : List Position
deriving DecidableEq, Repr

/-- The bot state at process start (`__init__` lines 450 and 492). -/
def init_state : GKState :=
  { notified_signals := [], positions := [] }

/-- The maker-style entry price of `execute_trade` (lines 1171-1179): best
ask of the target side (falling back to the mid default price when the ask
is non-positive) minus one tick, clamped to `[0.01, 0.99]`. -/
def entry_price_for (c : SigCall) : ℚ :=
  let best_ask :=
    if c.direction = Direction.UP then
      (if c.market.book_up.best_ask > 0 then c.market.book_up.best_ask else c.market.up_price)
    else
      (if c.market.book_down.best_ask > 0 then c.market.book_down.best_ask else c.market.down_price)
  min 0.99 (max 0.01 (best_ask - 0.01))

/-- The position dict appended by `execute_trade`: the paper path (lines
1190-1200) carries `"status": "OPEN"`; the live path (lines 1259-1266)
carries no status key at all, embedded as `status = none`. -/
def new_position (c : SigCall) (price : ℚ) : Position :=
  { market_slug := c.market.slug
    direction := c.direction
    entry_price := price
    size := c.size
    timestamp := c.now
    tp_placed := false
    status := if c.paper_trade then some Status.OPEN else none
    exit_price := none
    pnl := none }

/-- `PolymarketBotV3.execute_trade` (lines 1153-1266): return immediately if
the `(window, direction)` signal id is already in `notified_signals`,
otherwise add it; then, if execution is administratively disabled, stop
(observability only); otherwise append the new position.  Order submission,
logging and notification side effects are omitted. -/
def execute_trade (s : GKState) (c : SigCall) : GKState :=
  if signal_id c.market.slug c.direction ∈ s.notified_signals then s
  else
    let s2 : GKState :=
      { s with notified_signals := signal_id c.market.slug c.direction :: s.notified_signals }
    if c.execution_enabled = false then s2
    else { s2 with positions := s2.positions ++ [new_position c (entry_price_for c)] }

/-- A sequence of `execute_trade` calls folded over the bot state. -/
def run_calls (s : GKState) (cs : List SigCall) : GKState :=
  cs.foldl execute_trade s

/-- The signal ids that pass the de-duplication guard (i.e. produce an entry
attempt — at least a notification) across a sequence of calls, in order. -/
def attempted_signals (s : GKState) : List SigCall → List String
  | [] => []
  | c :: rest =>
    if signal_id c.market.slug c.direction ∈ s.notified_signals then
      attempted_signals (execute_trade s c) rest
    else
      signal_id c.market.slug c.direction :: attempted_signals (execute_trade s c) rest

/-- The de-duplication set only grows across a call. -/
theorem execute_trade_notified_mono (s : GKState) (c : SigCall) (x : String)
    (hx : x ∈ s.notified_signals) : x ∈ (execute_trade s c).notified_signals := by
  unfold execute_trade
  split
  · exact hx
  · split
    · exact List.mem_cons_of_mem _ hx
    · exact List.mem_cons_of_mem _ hx

/-- A call that passes the guard leaves its own signal id in the set. -/
theorem execute_trade_mem_self (s : GKState) (c : SigCall) :
    signal_id c.market.slug c.direction ∈ (execute_trade s c).notified_signals := by
  unfold execute_trade
  split
  · assumption
  · split
    · exact List.mem_cons_self _ _
    · exact List.mem_cons_self _ _

/-- Every attempted signal id was outside the de-duplication set when the
run started. -/
theorem attempted_signals_not_mem (cs : List SigCall) :
    ∀ (s : GKState) (x : String), x ∈ attempted_signals s cs →
      x ∉ s.notified_signals := by
  induction cs with
  | nil => intro s x hx; cases hx
  | cons c rest ih =>
    intro s x hx
    unfold attempted_signals at hx
    by_cases hmem : signal_id c.market.slug c.direction ∈ s.notified_signals
    · simp only [hmem, if_true] at hx
      intro hxs
      exact ih (execute_trade s c) x hx (execute_trade_notified_mono s c x hxs)
    · simp only [hmem, if_false, ite_false, List.mem_cons] at hx
      rcases hx with rfl | hx
      · exact hmem
      · intro hxs
        exact ih (execute_trade s c) x hx (execute_trade_notified_mono s c x hxs)

/-- C6: across any sequence of `execute_trade` calls from any bot state, the
signal ids that pass the de-duplication guard are pairwise distinct — the
Gatekeeper never issues two entry attempts for the same (window, direction)
pair; from process start the set begins empty (`init_state`). -/
theorem attempted_signals_nodup (cs : List SigCall) :
    ∀ s : GKState, (attempted_signals s cs).Nodup := by
  induction cs with
  | nil => intro s; exact List.nodup_nil
  | cons c rest ih =>
    intro s
    unfold attempted_signals
    by_cases hmem : signal_id c.market.slug c.direction ∈ s.notified_signals
    · simp only [hmem, if_true]
      exact ih (execute_trade s c)
    · simp only [hmem, if_false, ite_false]
      refine List.nodup_cons.mpr ⟨?_, ih (execute_trade s c)⟩
      intro hin
      exact attempted_signals_not_mem rest (execute_trade s c) _ hin
        (execute_trade_mem_self s c)

/-- Once a signal id is in the de-duplication set and no position carries its
pair, that stays true across any further call. -/
theorem pair_blocked_step (x : String) (s : GKState) (c : SigCall)
    (h1 : x ∈ s.notified_signals)
    (h2 : ∀ p ∈ s.positions, signal_id p.market_slug p.direction ≠ x) :
    x ∈ (execute_trade s c).notified_signals ∧
      ∀ p ∈ (execute_trade s c).positions, signal_id p.market_slug p.direction ≠ x := by
  refine ⟨execute_trade_notified_mono s c x h1, ?_⟩
  unfold execute_trade
  by_cases hmem : signal_id c.market.slug c.direction ∈ s.notified_signals
  · simpa [hmem] using h2
  · by_cases hen : c.execution_enabled = false
    · simpa [hmem, hen] using h2
    · simp only [hmem, if_false, hen, ite_false]
      intro p hp
      rcases List.mem_append.mp hp with hmemp | hsing
      · exact h2 p hmemp
      · rw [List.mem_singleton.mp hsing]
        intro hcx
        have hx2 : signal_id c.market.slug c.direction = x := hcx
        apply hmem
        rw [hx2]
        exact h1

/-- The blocked-pair property is preserved by any further call sequence. -/
theorem pair_blocked_run (x : String) (cs : List SigCall) :
    ∀ s : GKState, x ∈ s.notified_signals →
      (∀ p ∈ s.positions, signal_id p.market_slug p.direction ≠ x) →
      ∀ p ∈ (run_calls s cs).positions, signal_id p.market_slug p.direction ≠ x := by
  induction cs with
  | nil => intro s _ h2; exact h2
  | cons c rest ih =>
    intro s h1 h2
    have hstep := pair_blocked_step x s c h1 h2
    exact ih (execute_trade s c) hstep.1 hstep.2

/-- C8: when a signal fires (its id is not yet in the set) while execution is
administratively disabled, `execute_trade` records the id in the
de-duplication set before consulting the execution switch, appends no
position, and no later call — even with execution re-enabled by a config
hot-reload — ever appends a position for that (window, direction) pair. -/
theorem disabled_signal_never_executes (s : GKState) (c : SigCall)
    (cs : List SigCall)
    (hguard : signal_id c.market.slug c.direction ∉ s.notified_signals)
    (hdis : c.execution_enabled = false)
    (hpre : ∀ p ∈ s.positions,
      signal_id p.market_slug p.direction ≠ signal_id c.market.slug c.direction) :
    signal_id c.market.slug c.direction ∈ (execute_trade s c).notified_signals ∧
    (execute_trade s c).positions = s.positions ∧
    ∀ p ∈ (run_calls (execute_trade s c) cs).positions,
      signal_id p.market_slug p.direction ≠ signal_id c.market.slug c.direction := by
  have heq : execute_trade s c =
      { s with notified_signals := signal_id c.market.slug c.direction :: s.notified_signals } := by
    unfold execute_trade
    simp [hguard, hdis]
  refine ⟨execute_trade_mem_self s c, by rw [heq], ?_⟩
  apply pair_blocked_run _ cs (execute_trade s c) (execute_trade_mem_self s c)
  rw [heq]
  exact hpre

/-- Witness for C8: from process start, a disabled `UP` signal for the demo
window marks the pair in the set, and a later enabled call for the same pair
leaves the position collection empty. -/
theorem disabled_signal_never_executes_witness :
    signal_id demo_market.slug Direction.UP ∈
      (execute_trade init_state
        { market := demo_market, direction := Direction.UP, size := 0.05,
          paper_trade := true, execution_enabled := false,
          now := 1760227300 }).notified_signals ∧
    (run_calls (execute_trade init_state
        { market := demo_market, direction := Direction.UP, size := 0.05,
          paper_trade := true, execution_enabled := false, now := 1760227300 })
        [{ market := demo_market, direction := Direction.UP, size := 0.05,
           paper_trade := true, execution_enabled := true,
           now := 1760227400 }]).positions = [] := by
  have h := disabled_signal_never_executes init_state
    { market := demo_market, direction := Direction.UP, size := 0.05,
      paper_trade := true, execution_enabled := false, now := 1760227300 }
    [{ market := demo_market, direction := Direction.UP, size := 0.05,
       paper_trade := true, execution_enabled := true, now := 1760227400 }]
    (by simp [init_state]) rfl (by simp [init_state])
  refine ⟨h.1, ?_⟩
  have hrun : (run_calls (execute_trade init_state
      { market := demo_market, direction := Direction.UP, size := 0.05,
        paper_trade := true, execution_enabled := false, now := 1760227300 })
      [{ market := demo_market, direction := Direction.UP, size := 0.05,
         paper_trade := true, execution_enabled := true,
         now := 1760227400 }]).positions = [] := by
    simp [run_calls, execute_trade, init_state, signal_id]
  exact hrun

/-- Surviving positions of a stop-loss pass are no more numerous than the
input. -/
theorem check_stop_loss_length_le (paper_trade : Bool) (stop_loss_pct : ℚ)
    (m : Market15m) (ps : List Position) :
    (check_stop_loss paper_trade stop_loss_pct m ps).1.length ≤ ps.length := by
  induction ps with
  | nil => simp [check_stop_loss]
  | cons p rest ih =>
    simp only [check_stop_loss]
    split
    · simpa using ih
    · split
      · simpa using ih
      · split
        · simpa using ih
        · split
          · simp only [List.length_cons]
            omega
          · simpa using ih

/-- Surviving positions of a take-profit pass are no more numerous than the
input. -/
theorem check_take_profit_length_le (paper_trade : Bool) (m : Market15m)
    (ps : List Position) :
    (check_take_profit paper_trade m ps).1.length ≤ ps.length := by
  induction ps with
  | nil => simp [check_take_profit]
  | cons p rest ih =>
    simp only [check_take_profit]
    split_ifs <;> simp <;> omega

/-- Positions kept by the settlement iteration are no more numerous than the
input. -/
theorem settle_loop_kept_length_le (paper_trade : Bool) (m : Market15m)
    (winner : Direction) (ps : List Position) :
    (settle_loop paper_trade m winner ps).1.length ≤ ps.length := by
  induction ps with
  | nil => simp [settle_loop]
  | cons p rest ih =>
    simp only [settle_loop]
    split
    · simpa using ih
    · split
      · simpa using ih
      · simp only [List.length_cons]
        omega

/-- Positions kept by `settle_positions` are no more numerous than the
input. -/
theorem settle_positions_kept_length_le (paper_trade clob_client : Bool)
    (m : Market15m) (final_price : ℚ) (ps : List Position) :
    (settle_positions paper_trade clob_client m final_price ps).kept.length ≤ ps.length := by
  unfold settle_positions
  split
  · simp
  · split
    · simp
    · exact settle_loop_kept_length_le _ _ _ _

/-- An `execute_trade` call appends at most one position. -/
theorem execute_trade_positions_length (s : GKState) (c : SigCall) :
    (execute_trade s c).positions.length ≤ s.positions.length + 1 := by
  unfold execute_trade
  split
  · omega
  · split
    · simp
    · simp

/-- One iteration of the `trade_loop` / `run` state machine, restricted to
its effect on the position collection and the de-duplication set:
a pure monitoring tick, a stop-loss pass and a take-profit pass (line
803-804), an entry decision — which reaches `execute_trade` only when the
collection is empty, the serialization guard of lines 833-840 —, the
settlement at window end (line 919), and the stale-position cleanup of the
outer loop (line 606). -/
inductive Tick where
  | monitor
  | stop_loss_check (paper_trade : Bool) (stop_loss_pct : ℚ) (m : Market15m)
  | take_profit_check (paper_trade : Bool) (m : Market15m)
  | entry (c : SigCall)
  | settlement (paper_trade clob_client : Bool) (m : Market15m) (final_price : ℚ)
  | cleanup (now : ℚ)

/-- Effect of one tick on the bot state. -/
def tick_step (s : GKState) : Tick → GKState
  | Tick.monitor => s
  | Tick.stop_loss_check paper_trade stop_loss_pct m =>
    { s with positions := (check_stop_loss paper_trade stop_loss_pct m s.positions).1 }
  | Tick.take_profit_check paper_trade m =>
    { s with positions := (check_take_profit paper_trade m s.positions).1 }
  | Tick.entry c =>
    if s.positions = [] then execute_trade s c else s
  | Tick.settlement paper_trade clob_client m final_price =>
    { s with positions :=
        (settle_positions paper_trade clob_client m final_price s.positions).kept }
  | Tick.cleanup now =>
    { s with positions := cleanup_positions now s.positions }

/-- Number of positions with status `"OPEN"` in a collection. -/
def count_open (ps : List Position) : ℕ :=
  (ps.filter (fun p => p.status = some Status.OPEN)).length

/-- Every tick keeps the position collection at size at most one. -/
theorem tick_step_length_le (s : GKState) (t : Tick)
    (h : s.positions.length ≤ 1) : (tick_step s t).positions.length ≤ 1 := by
  cases t with
  | monitor => exact h
  | stop_loss_check paper_trade stop_loss_pct m =>
    exact le_trans (check_stop_loss_length_le paper_trade stop_loss_pct m s.positions) h
  | take_profit_check paper_trade m =>
    exact le_trans (check_take_profit_length_le paper_trade m s.positions) h
  | entry c =>
    simp only [tick_step]
    split
    · rename_i hempty
      have := execute_trade_positions_length s c
      rw [hempty] at this
      simpa using this
    · exact h
  | settlement paper_trade clob_client m final_price =>
    exact le_trans
      (settle_positions_kept_length_le paper_trade clob_client m final_price s.positions) h
  | cleanup now =>
    exact le_trans (List.length_filter_le _ _) h

/-- The size bound is preserved by any tick sequence. -/
theorem run_ticks_length_le (ticks : List Tick) :
    ∀ s : GKState, s.positions.length ≤ 1 →
      (ticks.foldl tick_step s).positions.length ≤ 1 := by
  induction ticks with
  | nil => intro s h; exact h
  | cons t rest ih =>
    intro s h
    exact ih (tick_step s t) (tick_step_length_le s t h)

/-- C1: from process start, across any sequence of decision ticks (entry
gated on an empty collection, stop-loss, take-profit, settlement, cleanup),
the position collection never holds two positions with status `"OPEN"`. -/
theorem at_most_one_open_position (ticks : List Tick) :
    count_open ((ticks.foldl tick_step init_state).positions) ≤ 1 :=
  le_trans (List.length_filter_le _ _)
    (run_ticks_length_le ticks init_state (by simp [init_state]))

/-- A record queued by `AsyncTradeLogger.log`; its dict payload is opaque to
the drain loop. -/
structure LogRecord where
  payload : String
deriving DecidableEq, Repr

/-- Program counter of the `AsyncTradeLogger.run` drain coroutine (lines
420-433): about to test `while self.running`, holding the record returned by
`queue.get()`, or exited. -/
inductive DrainPC where
  | loopHead
  | got (r : Option LogRecord)
  | exited
deriving DecidableEq, Repr

/-- State of an `AsyncTradeLogger`: the `running` flag, the queue (`none` is
the shutdown sentinel), the lines written to the log file, and the drain
coroutine's program counter. -/
structure LoggerState where
  running : Bool
  queue : List (Option LogRecord)
  file : List LogRecord
  pc : DrainPC
deriving DecidableEq, Repr

/-- Logger state at construction (lines 415-418): running, empty queue,
drain task at its loop head. -/
def logger_init : LoggerState :=
  { running := true, queue := [], file := [], pc := DrainPC.loopHead }

/-- `AsyncTradeLogger.log` (lines 435-440): `queue.put_nowait(record)`. -/
def logger_log (s : LoggerState) (r : LogRecord) : LoggerState :=
  { s with queue := s.queue ++ [some r] }

/-- `AsyncTradeLogger.stop` (lines 442-444): set `self.running = False`,
then enqueue the `None` sentinel (the unbounded `put` never suspends). -/
def logger_stop (s : LoggerState) : LoggerState :=
  { s with running := false, queue := s.queue ++ [none] }

/-- One step of the drain coroutine (lines 423-430): at the loop head, exit
if `running` is false, otherwise take the next queued record (or stay blocked
in `queue.get()` on an empty queue); a received `None` breaks out of the
loop; a received record is appended to the file and the loop repeats. -/
def drain_step (s : LoggerState) : LoggerState :=
  match s.pc with
  | DrainPC.loopHead =>
    if s.running then
      match s.queue with
      | [] => s
      | r :: rest => { s with queue := rest, pc := DrainPC.got r }
    else { s with pc := DrainPC.exited }
  | DrainPC.got none => { s with pc := DrainPC.exited }
  | DrainPC.got (some r) => { s with file := s.file ++ [r], pc := DrainPC.loopHead }
  | DrainPC.exited => s

/-- Iterated drain steps. -/
def drain_steps (s : LoggerState) : ℕ → LoggerState
  | 0 => s
  | n + 1 => drain_steps (drain_step s) n

/-- C4 refutation: three records are logged; the drain task (which was
suspended in `queue.get()`) writes the first and returns to its loop head;
then `stop` runs — clearing `running` before enqueueing the sentinel — and
the very next drain step exits the `while self.running` loop, leaving the
second and third records (both enqueued before the sentinel) unwritten
forever: the drain task does not process all remaining records before
exiting. -/
theorem stop_loses_enqueued_records :
    (drain_steps (logger_stop (drain_steps
        (logger_log (logger_log (logger_log logger_init
          { payload := "entry-record" })
          { payload := "stop-loss-record" })
          { payload := "settle-record" }) 2)) 1).pc = DrainPC.exited ∧
    (drain_steps (logger_stop (drain_steps
        (logger_log (logger_log (logger_log logger_init
          { payload := "entry-record" })
          { payload := "stop-loss-record" })
          { payload := "settle-record" }) 2)) 1).file =
      [{ payload := "entry-record" }] ∧
    (drain_steps (logger_stop (drain_steps
        (logger_log (logger_log (logger_log logger_init
          { payload := "entry-record" })
          { payload := "stop-loss-record" })
          { payload := "settle-record" }) 2)) 1).queue =
      [some { payload := "stop-loss-record" }, some { payload := "settle-record" }, none] := by
  refine ⟨rfl, rfl, rfl⟩

/-- C7: with a monotone `erf`, positive volatility and positive remaining
time (so that `sqrt` of both `minutes_left` and `2` is positive, as for the
real square root), `calculate_prob_up` is non-decreasing in the current
price; and on both paths of the trade loop (plain and ML-blended) the pair
satisfies `prob_up + prob_down = 1` exactly. -/
theorem prob_up_monotone_and_sum_one (sqrt erf : ℚ → ℚ)
    (volatility_per_min strike_price minutes_left : ℚ)
    (hmono : Monotone erf) (hvol : 0 < volatility_per_min)
    (hmin : 0 < minutes_left) (hs : 0 < sqrt minutes_left) (hs2 : 0 < sqrt 2) :
    Monotone (fun current_price =>
      calculate_prob_up sqrt erf volatility_per_min current_price strike_price minutes_left) ∧
    ∀ (math_prob : ℚ) (ml_prob : Option ℚ),
      (loop_probs math_prob ml_prob).1 + (loop_probs math_prob ml_prob).2 = 1 := by
  constructor
  · intro c1 c2 hc
    have hm : ¬ minutes_left ≤ 0 := not_le.mpr hmin
    have hsig : 0 < volatility_per_min * sqrt minutes_left := mul_pos hvol hs
    simp only [calculate_prob_up, hm, if_false, hsig.ne', ite_false]
    have h1 : (c1 - strike_price) / (volatility_per_min * sqrt minutes_left) / sqrt 2 ≤
        (c2 - strike_price) / (volatility_per_min * sqrt minutes_left) / sqrt 2 := by
      apply div_le_div_of_nonneg_right _ hs2.le
      apply div_le_div_of_nonneg_right _ hsig.le
      linarith
    have h2 := hmono h1
    linarith
  · intro math_prob ml_prob
    cases ml_prob with
    | none => simp [loop_probs]
    | some ai => simp [loop_probs]

/-- Witness for C7: with `sqrt = erf = id`, volatility 1, strike 0 and one
minute left, the probability at current price 0 is at most the probability at
current price 1, via the monotonicity theorem. -/
theorem prob_up_monotone_witness :
    calculate_prob_up (fun x => x) (fun x => x) 1 0 0 1 ≤
      calculate_prob_up (fun x => x) (fun x => x) 1 1 0 1 := by
  have h := prob_up_monotone_and_sum_one (fun x => x) (fun x => x) 1 0 1
    (fun a b hab => hab) one_pos one_pos (by norm_num) (by norm_num)
  exact h.1 (by norm_num : (0:ℚ) ≤ 1)

end KozBot
